import Mathlib

/-!
Verification development for the business-intelligence dashboard (`app.py`).

The development shallowly embeds the three computational pieces of the
repository:

* `BusinessAnalyzer.analyze_business_metrics` (metrics evaluator),
* the prompt builders (`generate_business_insights`, `process_document`,
  `generate_contract_template`, `generate_competitor_analysis`,
  `generate_market_trends`, `generate_swot_analysis`,
  `generate_risk_assessment`),
* `ContractGenerator.create_pdf` (the greedy word-wrap / page-overflow
  paginator).

Modelling conventions:

* Python floats are modelled as exact rationals (`ℚ`); the claims under
  study concern formula structure and zero-divisor handling, not binary
  rounding.
* Python string splitting (`str.split('\n')` and whitespace `str.split()`)
  is modelled by structural recursion over `String.data` so that every
  definition evaluates inside the kernel.  The semantics matches Python:
  splitting on an explicit separator keeps empty fragments (so
  `"".split('\n') == ['']`), while whitespace splitting drops empty
  fragments.
* The reportlab canvas is modelled by an explicit page/line state:
  `drawString` appends a drawn line to the current page, `showPage`
  closes the current page.  `Canvas.save` flushes the current page, so a
  finished document is `completed pages ++ [current page]`.
* `pdf.stringWidth` depends on the Helvetica font tables; the paginator
  is therefore parameterised by an arbitrary width function
  `sw : String → Int`, as in the specification's contract
  `paginate(content, …, font_metrics)`.  The concrete metric `sw6`
  (6 width units per character) instantiates it for concrete runs; it is
  the reference font of the specification's concrete scenarios.
-/

/-- Splitting a character list at every occurrence of the separator
character, keeping empty fragments.  Models Python `str.split(sep)` for a
one-character separator (and agrees with `String.splitOn`). -/
def splitCharAux (c : Char) : List Char → List (List Char)
  | [] => [[]]
  | a :: as =>
    match splitCharAux c as with
    | [] => [[]]
    | h :: t => if a = c then [] :: h :: t else (a :: h) :: t

/-- Splitting a character list at every character satisfying a predicate,
keeping empty fragments. -/
def splitPredAux (p : Char → Bool) : List Char → List (List Char)
  | [] => [[]]
  | a :: as =>
    match splitPredAux p as with
    | [] => [[]]
    | h :: t => if p a then [] :: h :: t else (a :: h) :: t

/-- `content.split('\n')` of the source: split into source lines on
explicit line-break characters, keeping empty lines. -/
def pySplitNL (s : String) : List String :=
  (splitCharAux '\n' s.data).map String.mk

/-- `line.split()` of the source: split on whitespace runs, dropping empty
fragments (Python's no-argument `split`). -/
def pyWords (s : String) : List String :=
  ((splitPredAux (fun c => c.isWhitespace) s.data).filter
    (fun w => !w.isEmpty)).map String.mk

/-- `sep.join(words)` of the source. -/
def pyJoin (sep : String) : List String → String
  | [] => ""
  | [w] => w
  | w :: ws => w ++ sep ++ pyJoin sep ws

/-- `' '.join(current_line)`: the string measured by `pdf.stringWidth` and
passed to `pdf.drawString`. -/
def joinWords (ws : List String) : String :=
  pyJoin " " ws

/-- One drawn text line of the PDF: the vertical position `y` it was drawn
at (all lines are drawn at `x = 50`) and the words joined into it. -/
structure DLine where
  y : Int
  words : List String
deriving DecidableEq

/-- The canvas state during `create_pdf`: pages already closed by
`showPage`, the lines drawn on the still-open page, and the vertical
cursor `y`. -/
structure PState where
  completed : List (List DLine)
  current : List DLine
  y : Int
deriving DecidableEq

/-- The finished paginated document (after `pdf.save()`): the ordered
pages and the final value of the cursor `y`. -/
structure PDoc where
  pages : List (List DLine)
  finalY : Int
deriving DecidableEq

/-- Lines 666–669 of the source: `if y < 50: pdf.showPage(); y = height - 50;
pdf.setFont(...)`.  (`letter` is 612 × 792.) -/
def pageBreak (st : PState) : PState :=
  if st.y < 50 then
    { completed := st.completed ++ [st.current], current := [], y := 792 - 50 }
  else st

/-- Lines 655–669 of the source, the body of `for word in words`:
append the word to `current_line`; if the joined line measures wider than
`width - 100`, pop the word again, draw the remaining `current_line` at
the present cursor, move the cursor down 20 units, restart `current_line`
with the overflowing word, and run the page-overflow check. -/
def wordStep (sw : String → Int) (p : PState × List String) (w : String) :
    PState × List String :=
  let cl := p.2 ++ [w]
  if sw (joinWords cl) > 612 - 100 then
    let st1 : PState :=
      { p.1 with current := p.1.current ++ [⟨p.1.y, p.2⟩], y := p.1.y - 20 }
    (pageBreak st1, [w])
  else (p.1, cl)

/-- Lines 652–674 of the source, processing one source line: fold the
word loop over `line.split()` starting from an empty `current_line`, then
(`if current_line:`) draw the remaining words at the present cursor and
move the cursor down 20 units — with no page-overflow check. -/
def lineStepW (sw : String → Int) (st : PState) (ws : List String) : PState :=
  let r := ws.foldl (wordStep sw) (st, [])
  if r.2 = [] then r.1
  else { r.1 with current := r.1.current ++ [⟨r.1.y, r.2⟩], y := r.1.y - 20 }

/-- Processing one source line, starting from the raw line text. -/
def lineStep (sw : String → Int) (st : PState) (line : String) : PState :=
  lineStepW sw st (pyWords line)

/-- The initial canvas state: nothing drawn, `y = height - 50`. -/
def pInit : PState :=
  { completed := [], current := [], y := 792 - 50 }

/-- The paginator run on an explicit list of source lines; `pdf.save()`
flushes the open page. -/
def paginateLines (sw : String → Int) (lines : List String) : PDoc :=
  let st := lines.foldl (lineStep sw) pInit
  { pages := st.completed ++ [st.current], finalY := st.y }

/-- `ContractGenerator.create_pdf` (lines 634–678 of the source),
parameterised by the string-width function: split the content on explicit
line breaks and run the wrap/overflow loop over every source line. -/
def create_pdf (sw : String → Int) (content : String) : PDoc :=
  paginateLines sw (pySplitNL content)

/-- The reference width function of the specification's concrete
scenarios: every character measures 6 width units. -/
def sw6 (s : String) : Int :=
  6 * (s.length : Int)

/-- All lines drawn so far, in drawing order (closed pages first, then the
open page). -/
def allLines (st : PState) : List DLine :=
  st.completed.flatten ++ st.current

/-- The words of a sequence of drawn lines, in drawing order. -/
def lineWords (ls : List DLine) : List String :=
  (ls.map DLine.words).flatten

/-- The words drawn so far, in drawing order. -/
def stWords (st : PState) : List String :=
  lineWords (allLines st)

/-- The words of a finished document, in drawing order. -/
def docWords (d : PDoc) : List String :=
  lineWords d.pages.flatten

/-- The whitespace-delimited words of a content string, in reading
order. -/
def wordsOfContent (content : String) : List String :=
  ((pySplitNL content).map pyWords).flatten

/-- The number of source lines that contain at least one word (only those
consume a vertical line slot). -/
def liveLines (lines : List String) : Nat :=
  (lines.filter (fun l => !(pyWords l).isEmpty)).length

/-- A word that is alone wider than the printable width is always drawn
on a line of its own. -/
def WideAlone (sw : String → Int) (d : PDoc) : Prop :=
  ∀ pg ∈ d.pages, ∀ l ∈ pg, ∀ w ∈ l.words,
    sw (joinWords [w]) > 612 - 100 → l.words = [w]

/-- The overflow check of the word loop never fires on the words of this
source line: every prefix of the line's words joins to at most the
printable width. -/
def NoWrapLine (sw : String → Int) (line : String) : Prop :=
  ∀ k ≤ (pyWords line).length,
    sw (joinWords ((pyWords line).take k)) ≤ 612 - 100

/-- Every drawn line of the document either is empty, fits the printable
width, or is a single (possibly over-wide) word. -/
def linePredOK (sw : String → Int) (ws : List String) : Prop :=
  ws = [] ∨ sw (joinWords ws) ≤ 612 - 100 ∨ ∃ w, ws = [w]

/-- A page is non-empty and its first line sits at the top position
`height - margin`. -/
def pageOK (pg : List DLine) : Prop :=
  (pg.map DLine.y).head? = some (792 - 50)

/-- Structural canvas invariant: every closed page is non-empty and
starts at the top position, and an empty open page has its cursor at the
top position. -/
def StOK (st : PState) : Prop :=
  (∀ pg ∈ st.completed, pageOK pg) ∧
  (st.current = [] → st.y = 792 - 50) ∧
  (st.current ≠ [] → pageOK st.current)

/-- Once a page has been closed, the open page and the pending
`current_line` are never simultaneously empty. -/
def NonDegen (st : PState) (cl : List String) : Prop :=
  st.completed ≠ [] → st.current ≠ [] ∨ cl ≠ []

/-- The input snapshot of `BusinessAnalyzer.analyze_business_metrics`
(the `data` dict assembled in `display_business_analytics`). -/
structure MetricsInput where
  business_type : String
  current_revenue : ℚ
  previous_revenue : ℚ
  net_profit : ℚ
  marketing_spend : ℚ
  new_customers : ℚ
  average_order_value : ℚ
  purchase_frequency : ℚ
  customer_lifespan : ℚ
  total_investment : ℚ
deriving DecidableEq

/-- The five derived metrics of the `metrics` dict. -/
structure Metrics where
  revenue_growth : ℚ
  profit_margin : ℚ
  customer_acquisition_cost : ℚ
  customer_lifetime_value : ℚ
  roi : ℚ
deriving DecidableEq

/-- `BusinessAnalyzer.analyze_business_metrics` (lines 93–107).  A zero
divisor raises `ZeroDivisionError` inside the `try`, which the `except`
turns into `st.error(f"Error analyzing metrics: {e}")` and a `None`
return; the message is the same generic Python text whichever divisor is
zero, so the four zero cases are modelled by one guard. -/
def analyze_business_metrics (d : MetricsInput) : Except String Metrics :=
  if d.previous_revenue = 0 ∨ d.current_revenue = 0 ∨ d.new_customers = 0 ∨
      d.total_investment = 0 then
    .error "Error analyzing metrics: float division by zero"
  else
    .ok
      { revenue_growth :=
          (d.current_revenue - d.previous_revenue) / d.previous_revenue * 100
        profit_margin := d.net_profit / d.current_revenue * 100
        customer_acquisition_cost := d.marketing_spend / d.new_customers
        customer_lifetime_value :=
          d.average_order_value * d.purchase_frequency * d.customer_lifespan
        roi :=
          (d.net_profit - d.total_investment) / d.total_investment * 100 }

/-- The guard `if metrics:` of `display_business_analytics` (lines
250–251): on a `None` result nothing is displayed. -/
def display_business_analytics (d : MetricsInput) : Option Metrics :=
  match analyze_business_metrics d with
  | .ok m => some m
  | .error _ => none

/-- The derived metrics exactly as the claim's formulas state them. -/
def derivedMetricsSpec (d : MetricsInput) : Metrics :=
  { revenue_growth :=
      (d.current_revenue - d.previous_revenue) / d.previous_revenue * 100
    profit_margin := d.net_profit / d.current_revenue * 100
    customer_acquisition_cost := d.marketing_spend / d.new_customers
    customer_lifetime_value :=
      d.average_order_value * d.purchase_frequency * d.customer_lifespan
    roi := (d.net_profit - d.total_investment) / d.total_investment * 100 }

/-- Round-half-even to an integer, the rounding of Python's `format`
(the float is modelled as an exact rational). -/
def roundHalfEven (x : ℚ) : Int :=
  let f := ⌊x⌋
  let r := x - (f : ℚ)
  if r < 1 / 2 then f
  else if 1 / 2 < r then f + 1
  else if f % 2 = 0 then f else f + 1

/-- Two decimal digits with a leading zero. -/
def twoDigits (k : Nat) : String :=
  if k < 10 then "0" ++ toString k else toString k

/-- Python's `f"{v:.2f}"`: the value rounded half-even to two decimal
places and rendered with exactly two fractional digits. -/
def format2f (q : ℚ) : String :=
  let n := roundHalfEven (q * 100)
  (if n < 0 then "-" else "") ++ toString (n.natAbs / 100) ++ "." ++
    twoDigits (n.natAbs % 100)

/-- The prompt of `BusinessAnalyzer.generate_business_insights` (lines
110–126); the metric values are embedded through `:.2f` formatting. -/
def generate_business_insights (metrics : Metrics) (business_type : String) :
    String :=
  "\n        Analyze the following business metrics for a " ++ business_type ++
  " business and provide strategic insights:\n        \n        Metrics:\n        - Revenue Growth: " ++
  format2f metrics.revenue_growth ++
  "%\n        - Profit Margin: " ++ format2f metrics.profit_margin ++
  "%\n        - Customer Acquisition Cost: $" ++
  format2f metrics.customer_acquisition_cost ++
  "\n        - Customer Lifetime Value: $" ++
  format2f metrics.customer_lifetime_value ++
  "\n        - ROI: " ++ format2f metrics.roi ++
  "%\n        \n        Please provide:\n        1. Key insights and trends\n        2. Specific recommendations for improvement\n        3. Potential risks and opportunities\n        4. Strategic action items\n        "

/-- The prompt of `process_document` (lines 161–167). -/
def process_document (text_content process_type : String) : String :=
  "Process the following document content based on " ++ process_type ++
  ":\n        \n        " ++ text_content ++
  "\n        \n        Provide a detailed " ++ process_type ++
  " focusing on the main points and key takeaways."

/-- The prompt of `ContractGenerator.generate_contract_template` (lines
611–624). -/
def generate_contract_template (contract_type requirements : String) : String :=
  "Generate a professional " ++ contract_type ++
  " contract with the following requirements:\n        " ++ requirements ++
  "\n        \n        Please include all standard legal sections including:\n        1. Parties involved\n        2. Terms and conditions\n        3. Payment terms (if applicable)\n        4. Duration\n        5. Termination clauses\n        6. Governing law\n        7. Signature blocks\n        \n        Format in proper legal contract style with clear sections and numbering."

/-- The prompt of `generate_competitor_analysis` (lines 498–509). -/
def generate_competitor_analysis
    (competitors market_position industry : String) : String :=
  "Analyze the competitive landscape for a " ++ market_position ++
  " in the " ++ industry ++ " industry.\n    \n    Competitors:\n    " ++
  competitors ++
  "\n    \n    Please provide:\n    1. Detailed competitor analysis\n    2. Market positioning strategy\n    3. Competitive advantages and disadvantages\n    4. Recommendations for market positioning\n    "

/-- The prompt of `generate_market_trends` (lines 519–530); the selected
focus areas are embedded through `', '.join(...)`. -/
def generate_market_trends
    (industry timeframe : String) (focus_areas : List String) : String :=
  "Analyze market trends for the " ++ industry ++ " industry over a " ++
  timeframe ++ " period.\n    \n    Focus Areas:\n    " ++
  pyJoin ", " focus_areas ++
  "\n    \n    Please provide:\n    1. Current market trends\n    2. Future projections\n    3. Impact analysis\n    4. Strategic recommendations\n    "

/-- The prompt of `generate_swot_analysis` (lines 540–559). -/
def generate_swot_analysis
    (strengths weaknesses opportunities threats industry : String) : String :=
  "Perform a SWOT analysis for a company in the " ++ industry ++
  " industry.\n    \n    Strengths:\n    " ++ strengths ++
  "\n    \n    Weaknesses:\n    " ++ weaknesses ++
  "\n    \n    Opportunities:\n    " ++ opportunities ++
  "\n    \n    Threats:\n    " ++ threats ++
  "\n    \n    Please provide:\n    1. Detailed SWOT analysis\n    2. Strategic implications\n    3. Recommended actions\n    "

/-- The prompt of `generate_risk_assessment` (lines 569–580); the
selected risk factors are embedded through `', '.join(...)`. -/
def generate_risk_assessment
    (risk_factors : List String) (industry : String) : String :=
  "Assess risks for a company in the " ++ industry ++
  " industry.\n    \n    Risk Factors:\n    " ++ pyJoin ", " risk_factors ++
  "\n    \n    Please provide:\n    1. Risk analysis for each factor\n    2. Risk mitigation strategies\n    3. Monitoring recommendations\n    4. Contingency planning\n    "

/-- Substring scan over character lists (`pat` occurs in the list). -/
def hasSubAux (p : List Char) : List Char → Bool
  | [] => p.isPrefixOf ([] : List Char)
  | c :: t => p.isPrefixOf (c :: t) || hasSubAux p t

/-- `pat` occurs verbatim as a contiguous substring of `s`. -/
def strHasSub (s pat : String) : Bool :=
  hasSubAux pat.data s.data

/-- Every element of the list occurs verbatim in the prompt. -/
def ElemsAppear (prompt : String) (l : List String) : Prop :=
  ∀ x ∈ l, strHasSub prompt x = true

/-- A 43-character word: two of them joined measure 522 > 512 units under
`sw6`, so they can never share a drawn line. -/
def bigX : String :=
  String.mk (List.replicate 43 'x')

/-- An 86-character word: alone it measures 516 > 512 units under `sw6`,
wider than the printable width. -/
def wideW : String :=
  String.mk (List.replicate 86 'x')

/-- 34 one-word source lines followed by a line of two 43-character
words: the wrap of the last line fires with the cursor at 42 < 50, so the
document breaks onto a second page. -/
def contentA : String :=
  pyJoin "\n" (List.replicate 34 "a") ++ "\n" ++ bigX ++ " " ++ bigX

/-- 37 one-word source lines (35 short ones and the two 43-character
words on lines of their own): more words than `contentA`, same
vocabulary, but no wrap ever fires, so the document stays on one page. -/
def contentB : String :=
  pyJoin "\n" (List.replicate 35 "a") ++ "\n" ++ bigX ++ "\n" ++ bigX

/-- 36 one-word source lines: the 36th is drawn at `y = 42`, below the
bottom margin, because the final-line emission has no overflow check. -/
def content36 : String :=
  pyJoin "\n" (List.replicate 36 "a")

/-- 40 one-word source lines: no wrap ever fires, the cursor ends at
`742 - 800 = -58 < 0` on a single page. -/
def content40 : String :=
  pyJoin "\n" (List.replicate 40 "a")

/-- The metrics snapshot with `previous_revenue = 0` used to exhibit the
generic zero-division error message. -/
def zeroPrevInput : MetricsInput :=
  { business_type := "Retail", current_revenue := 150, previous_revenue := 0,
    net_profit := 30, marketing_spend := 50, new_customers := 10,
    average_order_value := 20, purchase_frequency := 4, customer_lifespan := 3,
    total_investment := 120 }

/-- A metrics snapshot with all divisors non-zero. -/
def okInput : MetricsInput :=
  { business_type := "SaaS", current_revenue := 150, previous_revenue := 100,
    net_profit := 30, marketing_spend := 50, new_customers := 10,
    average_order_value := 20, purchase_frequency := 4, customer_lifespan := 3,
    total_investment := 120 }

/-- Derived metrics whose revenue growth is `0.125`: formatted with
`:.2f` it appears as `0.12`, not verbatim. -/
def eighthMetrics : Metrics :=
  { revenue_growth := 1 / 8, profit_margin := 1,
    customer_acquisition_cost := 2, customer_lifetime_value := 3, roi := 4 }

set_option maxRecDepth 8000

/-- Processing an empty word list leaves the canvas untouched. -/
theorem lineStepW_nil (sw : String → Int) (st : PState) :
    lineStepW sw st [] = st := by
  simp [lineStepW]

/-- A source line without words (blank or whitespace-only) leaves the
canvas untouched: nothing is drawn and the cursor does not move. -/
theorem lineStep_no_words (sw : String → Int) (st : PState) (line : String)
    (h : pyWords line = []) : lineStep sw st line = st := by
  rw [lineStep, h, lineStepW_nil]

/-- Claim C7: paginating the empty content string yields exactly one page
with zero drawn lines (and the cursor still at the top). -/
theorem C7_theorem (sw : String → Int) :
    (create_pdf sw "").pages = [[]] ∧ (create_pdf sw "").pages.length = 1 ∧
    (create_pdf sw "").finalY = 792 - 50 :=
  ⟨rfl, rfl, rfl⟩

/-- Claim C7, instantiated at the concrete reference width function. -/
theorem C7_witness :
    (create_pdf sw6 "").pages = [[]] ∧ (create_pdf sw6 "").pages.length = 1 ∧
    (create_pdf sw6 "").finalY = 792 - 50 :=
  C7_theorem sw6

/-- Claim C2 is false on the code: in `"a\n\nb"` the blank middle source
line consumes no output line slot — `"b"` is drawn at `y = 722`,
immediately under `"a"`, and the cursor ends at `702`, not at
`742 - 3·20 = 682` as one slot per source line would give. -/
theorem C2_counterexample :
    (create_pdf sw6 "a\n\nb").pages = [[⟨742, ["a"]⟩, ⟨722, ["b"]⟩]] ∧
    (create_pdf sw6 "a\n\nb").finalY = 702 ∧
    ¬ (create_pdf sw6 "a\n\nb").finalY = 792 - 50 - 20 * 3 :=
  ⟨by decide, by decide, by decide⟩

/-- Claim C2 (amended): content is split into source lines on explicit
line breaks and each source line is wrapped independently, but a blank
source line (one containing no words) consumes no output line slot:
processing it leaves the canvas state unchanged. -/
theorem C2_theorem (sw : String → Int) (st : PState) (line : String)
    (h : pyWords line = []) : lineStep sw st line = st :=
  lineStep_no_words sw st line h

/-- Claim C2 (amended), instantiated at the empty source line. -/
theorem C2_witness : lineStep sw6 pInit "" = pInit :=
  C2_theorem sw6 pInit "" rfl

/-- Claim C3 is false as stated: with `previous_revenue = 0` the
evaluator does fail (returning no metrics), but the error message is the
generic Python zero-division text and does not name the offending
field. -/
theorem C3_counterexample :
    analyze_business_metrics zeroPrevInput =
      .error "Error analyzing metrics: float division by zero" ∧
    strHasSub "Error analyzing metrics: float division by zero"
      "previous_revenue" = false ∧
    display_business_analytics zeroPrevInput = none := by
  have h : zeroPrevInput.previous_revenue = 0 ∨
      zeroPrevInput.current_revenue = 0 ∨ zeroPrevInput.new_customers = 0 ∨
      zeroPrevInput.total_investment = 0 := Or.inl rfl
  refine ⟨?_, by decide, ?_⟩
  · unfold analyze_business_metrics
    rw [if_pos h]
  · unfold display_business_analytics analyze_business_metrics
    rw [if_pos h]

/-- Claim C3 (amended): whenever `previous_revenue`, `current_revenue`,
`new_customers` or `total_investment` is zero, the metrics evaluation
yields an error — with the generic zero-division message, which does not
name the offending field — rather than a metrics value, and the caller
displays nothing. -/
theorem C3_theorem (d : MetricsInput)
    (h : d.previous_revenue = 0 ∨ d.current_revenue = 0 ∨
      d.new_customers = 0 ∨ d.total_investment = 0) :
    analyze_business_metrics d =
      .error "Error analyzing metrics: float division by zero" ∧
    display_business_analytics d = none := by
  constructor
  · unfold analyze_business_metrics
    rw [if_pos h]
  · unfold display_business_analytics analyze_business_metrics
    rw [if_pos h]

/-- Claim C3 (amended), instantiated at a snapshot with zero previous
revenue. -/
theorem C3_witness :
    analyze_business_metrics zeroPrevInput =
      .error "Error analyzing metrics: float division by zero" ∧
    display_business_analytics zeroPrevInput = none :=
  C3_theorem zeroPrevInput (Or.inl rfl)

/-- Claim C4: with all four divisors non-zero, the evaluator returns
exactly the five derived metrics given by the claim's formulas. -/
theorem C4_theorem (d : MetricsInput) (h1 : d.previous_revenue ≠ 0)
    (h2 : d.current_revenue ≠ 0) (h3 : d.new_customers ≠ 0)
    (h4 : d.total_investment ≠ 0) :
    analyze_business_metrics d = .ok (derivedMetricsSpec d) := by
  unfold analyze_business_metrics derivedMetricsSpec
  rw [if_neg (by simp [h1, h2, h3, h4])]

/-- Claim C4, instantiated at a concrete all-divisors-non-zero
snapshot. -/
theorem C4_witness :
    analyze_business_metrics okInput = .ok (derivedMetricsSpec okInput) :=
  C4_theorem okInput (by norm_num [okInput]) (by norm_num [okInput])
    (by norm_num [okInput]) (by norm_num [okInput])

/-- A list is a Boolean prefix of itself followed by anything. -/
theorem isPrefixOf_append_self (p q : List Char) :
    p.isPrefixOf (p ++ q) = true := by
  induction p with
  | nil => simp [List.isPrefixOf]
  | cons a as ih => simp [List.isPrefixOf, ih]

/-- A Boolean prefix survives appending on the right. -/
theorem isPrefixOf_append_right {p q : List Char} (r : List Char)
    (h : p.isPrefixOf q = true) : p.isPrefixOf (q ++ r) = true := by
  induction p generalizing q with
  | nil => simp [List.isPrefixOf]
  | cons a as ih =>
    cases q with
    | nil => simp [List.isPrefixOf] at h
    | cons b bs =>
      simp only [List.isPrefixOf, Bool.and_eq_true] at h
      simpa [List.isPrefixOf, h.1] using ih h.2

/-- The empty pattern occurs in every list. -/
theorem hasSubAux_nil_pat (s : List Char) : hasSubAux [] s = true := by
  cases s with
  | nil => rfl
  | cons c t => simp [hasSubAux, List.isPrefixOf]

/-- A pattern that is a prefix occurs as a substring. -/
theorem hasSubAux_of_pref {p s : List Char} (h : p.isPrefixOf s = true) :
    hasSubAux p s = true := by
  cases s with
  | nil => exact h
  | cons c t => simp [hasSubAux, h]

/-- A substring occurrence survives prepending one character. -/
theorem hasSubAux_cons {p t : List Char} (c : Char)
    (h : hasSubAux p t = true) : hasSubAux p (c :: t) = true := by
  simp [hasSubAux, h]

/-- A substring occurrence survives prepending any list. -/
theorem hasSubAux_append_left (a : List Char) {p s : List Char}
    (h : hasSubAux p s = true) : hasSubAux p (a ++ s) = true := by
  induction a with
  | nil => simpa using h
  | cons c cs ih => exact hasSubAux_cons c ih

/-- A substring occurrence survives appending any list. -/
theorem hasSubAux_append_right (b : List Char) {p s : List Char}
    (h : hasSubAux p s = true) : hasSubAux p (s ++ b) = true := by
  induction s with
  | nil =>
    cases p with
    | nil => exact hasSubAux_nil_pat b
    | cons a as => simp [hasSubAux, List.isPrefixOf] at h
  | cons c t ih =>
    simp only [hasSubAux, Bool.or_eq_true] at h
    rcases h with h | h
    · exact hasSubAux_of_pref (isPrefixOf_append_right b h)
    · exact hasSubAux_cons c (ih h)

/-- String append acts as list append on the character data. -/
theorem str_data_append (a b : String) : (a ++ b).data = a.data ++ b.data := by
  cases a
  cases b
  rfl

/-- String append is associative. -/
theorem str_append_assoc (a b c : String) : a ++ b ++ c = a ++ (b ++ c) := by
  cases a
  cases b
  cases c
  exact congrArg String.mk (List.append_assoc _ _ _)

/-- A verbatim occurrence survives prepending text. -/
theorem hasSub_left (a : String) {s p : String} (h : strHasSub s p = true) :
    strHasSub (a ++ s) p = true := by
  unfold strHasSub at h ⊢
  rw [str_data_append]
  exact hasSubAux_append_left a.data h

/-- A verbatim occurrence survives appending text. -/
theorem hasSub_right (b : String) {s p : String} (h : strHasSub s p = true) :
    strHasSub (s ++ b) p = true := by
  unfold strHasSub at h ⊢
  rw [str_data_append]
  exact hasSubAux_append_right b.data h

/-- A string occurs verbatim at the front of itself followed by
anything. -/
theorem hasSub_head (p b : String) : strHasSub (p ++ b) p = true := by
  unfold strHasSub
  rw [str_data_append]
  exact hasSubAux_of_pref (isPrefixOf_append_self p.data b.data)

/-- A string occurs verbatim in itself. -/
theorem hasSub_self (p : String) : strHasSub p p = true := by
  unfold strHasSub
  apply hasSubAux_of_pref
  have h := isPrefixOf_append_self p.data []
  rwa [List.append_nil] at h

/-- Every member of a joined list occurs verbatim in the join. -/
theorem hasSub_join_mem (sep : String) {x : String} {l : List String}
    (h : x ∈ l) : strHasSub (pyJoin sep l) x = true := by
  induction l with
  | nil => cases h
  | cons y ys ih =>
    cases ys with
    | nil =>
      rw [List.mem_singleton] at h
      subst h
      exact hasSub_self _
    | cons z zs =>
      rcases List.mem_cons.mp h with h | h
      · subst h
        exact hasSub_right _ (hasSub_right _ (hasSub_self x))
      · exact hasSub_left _ (ih h)

/-- Concrete evaluation: `0.125` formatted with `:.2f` is `0.12`
(round-half-even at the tie). -/
theorem fmtEighth : format2f (1 / 8) = "0.12" := by
  unfold format2f roundHalfEven
  rw [show ((1 : ℚ) / 8 * 100) = 25 / 2 by norm_num]
  rw [show ⌊(25 / 2 : ℚ)⌋ = 12 from Int.floor_eq_iff.mpr (by norm_num)]
  norm_num
  decide

/-- Concrete evaluation: `1` formatted with `:.2f` is `1.00`. -/
theorem fmtOne : format2f 1 = "1.00" := by
  unfold format2f roundHalfEven
  rw [show ((1 : ℚ) * 100) = 100 by norm_num]
  rw [show ⌊(100 : ℚ)⌋ = 100 from Int.floor_eq_iff.mpr (by norm_num)]
  norm_num
  decide

/-- Concrete evaluation: `2` formatted with `:.2f` is `2.00`. -/
theorem fmtTwo : format2f 2 = "2.00" := by
  unfold format2f roundHalfEven
  rw [show ((2 : ℚ) * 100) = 200 by norm_num]
  rw [show ⌊(200 : ℚ)⌋ = 200 from Int.floor_eq_iff.mpr (by norm_num)]
  norm_num
  decide

/-- Concrete evaluation: `3` formatted with `:.2f` is `3.00`. -/
theorem fmtThree : format2f 3 = "3.00" := by
  unfold format2f roundHalfEven
  rw [show ((3 : ℚ) * 100) = 300 by norm_num]
  rw [show ⌊(300 : ℚ)⌋ = 300 from Int.floor_eq_iff.mpr (by norm_num)]
  norm_num
  decide

/-- Concrete evaluation: `4` formatted with `:.2f` is `4.00`. -/
theorem fmtFour : format2f 4 = "4.00" := by
  unfold format2f roundHalfEven
  rw [show ((4 : ℚ) * 100) = 400 by norm_num]
  rw [show ⌊(400 : ℚ)⌋ = 400 from Int.floor_eq_iff.mpr (by norm_num)]
  norm_num
  decide

/-- Claim C8 is false as stated: the business-insights builder embeds the
metric values through `:.2f` formatting, so a metric value of `0.125`
does not appear verbatim in the prompt — only its two-decimal rendering
`0.12` does. -/
theorem C8_counterexample :
    strHasSub (generate_business_insights eighthMetrics "SaaS") "0.125" =
      false ∧
    strHasSub (generate_business_insights eighthMetrics "SaaS") "0.12" =
      true := by
  unfold generate_business_insights
  rw [show format2f eighthMetrics.revenue_growth = "0.12" from fmtEighth,
    show format2f eighthMetrics.profit_margin = "1.00" from fmtOne,
    show format2f eighthMetrics.customer_acquisition_cost = "2.00" from fmtTwo,
    show format2f eighthMetrics.customer_lifetime_value = "3.00" from fmtThree,
    show format2f eighthMetrics.roi = "4.00" from fmtFour]
  exact ⟨by decide, by decide⟩

/-- Claim C8 (amended): every prompt builder is a pure function (so two
calls with identical parameters yield the same string), every
string-valued parameter appears verbatim as a substring of the produced
prompt, every element of a list-valued parameter appears verbatim (the
list itself is embedded comma-joined), and the business-insights builder
embeds the metric values in their two-decimal `:.2f` rendering (which
appears verbatim in place of the raw value). -/
theorem C8_theorem (m : Metrics)
    (business_type text_content process_type contract_type requirements
      competitors market_position industry timeframe strengths weaknesses
      opportunities threats : String)
    (focus_areas risk_factors : List String) :
    (generate_business_insights m business_type =
      generate_business_insights m business_type) ∧
    strHasSub (generate_business_insights m business_type) business_type =
      true ∧
    strHasSub (generate_business_insights m business_type)
      (format2f m.revenue_growth) = true ∧
    strHasSub (generate_business_insights m business_type)
      (format2f m.profit_margin) = true ∧
    strHasSub (generate_business_insights m business_type)
      (format2f m.customer_acquisition_cost) = true ∧
    strHasSub (generate_business_insights m business_type)
      (format2f m.customer_lifetime_value) = true ∧
    strHasSub (generate_business_insights m business_type)
      (format2f m.roi) = true ∧
    (process_document text_content process_type =
      process_document text_content process_type) ∧
    strHasSub (process_document text_content process_type) text_content =
      true ∧
    strHasSub (process_document text_content process_type) process_type =
      true ∧
    (generate_contract_template contract_type requirements =
      generate_contract_template contract_type requirements) ∧
    strHasSub (generate_contract_template contract_type requirements)
      contract_type = true ∧
    strHasSub (generate_contract_template contract_type requirements)
      requirements = true ∧
    (generate_competitor_analysis competitors market_position industry =
      generate_competitor_analysis competitors market_position industry) ∧
    strHasSub (generate_competitor_analysis competitors market_position
      industry) competitors = true ∧
    strHasSub (generate_competitor_analysis competitors market_position
      industry) market_position = true ∧
    strHasSub (generate_competitor_analysis competitors market_position
      industry) industry = true ∧
    (generate_market_trends industry timeframe focus_areas =
      generate_market_trends industry timeframe focus_areas) ∧
    strHasSub (generate_market_trends industry timeframe focus_areas)
      industry = true ∧
    strHasSub (generate_market_trends industry timeframe focus_areas)
      timeframe = true ∧
    ElemsAppear (generate_market_trends industry timeframe focus_areas)
      focus_areas ∧
    (generate_swot_analysis strengths weaknesses opportunities threats
      industry =
      generate_swot_analysis strengths weaknesses opportunities threats
        industry) ∧
    strHasSub (generate_swot_analysis strengths weaknesses opportunities
      threats industry) industry = true ∧
    strHasSub (generate_swot_analysis strengths weaknesses opportunities
      threats industry) strengths = true ∧
    strHasSub (generate_swot_analysis strengths weaknesses opportunities
      threats industry) weaknesses = true ∧
    strHasSub (generate_swot_analysis strengths weaknesses opportunities
      threats industry) opportunities = true ∧
    strHasSub (generate_swot_analysis strengths weaknesses opportunities
      threats industry) threats = true ∧
    (generate_risk_assessment risk_factors industry =
      generate_risk_assessment risk_factors industry) ∧
    strHasSub (generate_risk_assessment risk_factors industry) industry =
      true ∧
    ElemsAppear (generate_risk_assessment risk_factors industry)
      risk_factors := by
  refine ⟨rfl, ?_, ?_, ?_, ?_, ?_, ?_, rfl, ?_, ?_, rfl, ?_, ?_, rfl, ?_,
    ?_, ?_, rfl, ?_, ?_, ?_, rfl, ?_, ?_, ?_, ?_, ?_, rfl, ?_, ?_⟩
  · simp only [generate_business_insights, str_append_assoc]
    exact hasSub_left _ (hasSub_head _ _)
  · simp only [generate_business_insights, str_append_assoc]
    exact hasSub_left _ (hasSub_left _ (hasSub_left _ (hasSub_head _ _)))
  · simp only [generate_business_insights, str_append_assoc]
    exact hasSub_left _ (hasSub_left _ (hasSub_left _ (hasSub_left _
      (hasSub_left _ (hasSub_head _ _)))))
  · simp only [generate_business_insights, str_append_assoc]
    exact hasSub_left _ (hasSub_left _ (hasSub_left _ (hasSub_left _
      (hasSub_left _ (hasSub_left _ (hasSub_left _ (hasSub_head _ _)))))))
  · simp only [generate_business_insights, str_append_assoc]
    exact hasSub_left _ (hasSub_left _ (hasSub_left _ (hasSub_left _
      (hasSub_left _ (hasSub_left _ (hasSub_left _ (hasSub_left _
        (hasSub_left _ (hasSub_head _ _)))))))))
  · simp only [generate_business_insights, str_append_assoc]
    exact hasSub_left _ (hasSub_left _ (hasSub_left _ (hasSub_left _
      (hasSub_left _ (hasSub_left _ (hasSub_left _ (hasSub_left _
        (hasSub_left _ (hasSub_left _ (hasSub_left _
          (hasSub_head _ _)))))))))))
  · simp only [process_document, str_append_assoc]
    exact hasSub_left _ (hasSub_left _ (hasSub_left _ (hasSub_head _ _)))
  · simp only [process_document, str_append_assoc]
    exact hasSub_left _ (hasSub_head _ _)
  · simp only [generate_contract_template, str_append_assoc]
    exact hasSub_left _ (hasSub_head _ _)
  · simp only [generate_contract_template, str_append_assoc]
    exact hasSub_left _ (hasSub_left _ (hasSub_left _ (hasSub_head _ _)))
  · simp only [generate_competitor_analysis, str_append_assoc]
    exact hasSub_left _ (hasSub_left _ (hasSub_left _ (hasSub_left _
      (hasSub_left _ (hasSub_head _ _)))))
  · simp only [generate_competitor_analysis, str_append_assoc]
    exact hasSub_left _ (hasSub_head _ _)
  · simp only [generate_competitor_analysis, str_append_assoc]
    exact hasSub_left _ (hasSub_left _ (hasSub_left _ (hasSub_head _ _)))
  · simp only [generate_market_trends, str_append_assoc]
    exact hasSub_left _ (hasSub_head _ _)
  · simp only [generate_market_trends, str_append_assoc]
    exact hasSub_left _ (hasSub_left _ (hasSub_left _ (hasSub_head _ _)))
  · intro x hx
    simp only [generate_market_trends, str_append_assoc]
    exact hasSub_left _ (hasSub_left _ (hasSub_left _ (hasSub_left _
      (hasSub_left _ (hasSub_right _ (hasSub_join_mem _ hx))))))
  · simp only [generate_swot_analysis, str_append_assoc]
    exact hasSub_left _ (hasSub_head _ _)
  · simp only [generate_swot_analysis, str_append_assoc]
    exact hasSub_left _ (hasSub_left _ (hasSub_left _ (hasSub_head _ _)))
  · simp only [generate_swot_analysis, str_append_assoc]
    exact hasSub_left _ (hasSub_left _ (hasSub_left _ (hasSub_left _
      (hasSub_left _ (hasSub_head _ _)))))
  · simp only [generate_swot_analysis, str_append_assoc]
    exact hasSub_left _ (hasSub_left _ (hasSub_left _ (hasSub_left _
      (hasSub_left _ (hasSub_left _ (hasSub_left _ (hasSub_head _ _)))))))
  · simp only [generate_swot_analysis, str_append_assoc]
    exact hasSub_left _ (hasSub_left _ (hasSub_left _ (hasSub_left _
      (hasSub_left _ (hasSub_left _ (hasSub_left _ (hasSub_left _
        (hasSub_left _ (hasSub_head _ _)))))))))
  · simp only [generate_risk_assessment, str_append_assoc]
    exact hasSub_left _ (hasSub_head _ _)
  · intro x hx
    simp only [generate_risk_assessment, str_append_assoc]
    exact hasSub_left _ (hasSub_left _ (hasSub_left _
      (hasSub_right _ (hasSub_join_mem _ hx))))

/-- Claim C8 (amended), instantiated: the caller-supplied requirements
text appears verbatim in the contract prompt, and every selected focus
area appears verbatim in the market-trends prompt. -/
theorem C8_witness :
    strHasSub (generate_contract_template "NDA" "Payment Terms: net 30")
      "Payment Terms: net 30" = true ∧
    ElemsAppear (generate_market_trends "Technology" "Short-term"
      ["Market Size", "Growth Potential"])
      ["Market Size", "Growth Potential"] := by
  have h := C8_theorem eighthMetrics "SaaS" "doc body" "Smart Summary" "NDA"
    "Payment Terms: net 30" "Acme\nGlobex" "Market Leader" "Technology"
    "Short-term" "s" "w" "o" "t" ["Market Size", "Growth Potential"]
    ["Market Risk"]
  exact ⟨h.2.2.2.2.2.2.2.2.2.2.2.2.1,
    h.2.2.2.2.2.2.2.2.2.2.2.2.2.2.2.2.2.2.2.2.1⟩

/-- The page-overflow check never changes the sequence of drawn lines,
only the page boundaries. -/
theorem allLines_pageBreak (st : PState) :
    allLines (pageBreak st) = allLines st := by
  unfold pageBreak
  by_cases h : st.y < 50
  · simp [h, allLines]
  · simp [h]

/-- Drawing one line appends it to the sequence of drawn lines. -/
theorem allLines_draw (st : PState) (l : DLine) (y2 : Int) :
    allLines { st with current := st.current ++ [l], y := y2 } =
      allLines st ++ [l] := by
  simp [allLines]

/-- The word step when the appended word makes the line overflow. -/
theorem wordStep_over {sw : String → Int} {p : PState × List String}
    {w : String} (h : sw (joinWords (p.2 ++ [w])) > 612 - 100) :
    wordStep sw p w = (pageBreak { p.1 with current := p.1.current ++ [⟨p.1.y, p.2⟩], y := p.1.y - 20 }, [w]) := by
  simp only [wordStep]
  rw [if_pos h]

/-- The word step when the appended word still fits. -/
theorem wordStep_fit {sw : String → Int} {p : PState × List String}
    {w : String} (h : ¬ sw (joinWords (p.2 ++ [w])) > 612 - 100) :
    wordStep sw p w = (p.1, p.2 ++ [w]) := by
  simp only [wordStep]
  rw [if_neg h]

/-- One word step only ever appends drawn lines. -/
theorem allLines_wordStep (sw : String → Int) (p : PState × List String)
    (w : String) :
    ∃ em, allLines (wordStep sw p w).1 = allLines p.1 ++ em := by
  by_cases h : sw (joinWords (p.2 ++ [w])) > 612 - 100
  · refine ⟨[⟨p.1.y, p.2⟩], ?_⟩
    rw [wordStep_over h]
    show allLines (pageBreak _) = _
    rw [allLines_pageBreak, allLines_draw]
  · exact ⟨[], by rw [wordStep_fit h]; simp⟩

/-- The word loop only ever appends drawn lines. -/
theorem allLines_fold (sw : String → Int) (ws : List String) :
    ∀ p, ∃ em,
      allLines ((ws.foldl (wordStep sw) p).1) = allLines p.1 ++ em := by
  induction ws with
  | nil => exact fun p => ⟨[], by simp⟩
  | cons w ws ih =>
    intro p
    rw [List.foldl_cons]
    obtain ⟨e1, h1⟩ := allLines_wordStep sw p w
    obtain ⟨e2, h2⟩ := ih (wordStep sw p w)
    exact ⟨e1 ++ e2, by rw [h2, h1, List.append_assoc]⟩

/-- Processing a source line only ever appends drawn lines. -/
theorem allLines_lineStepW (sw : String → Int) (st : PState)
    (ws : List String) :
    ∃ em, allLines (lineStepW sw st ws) = allLines st ++ em := by
  obtain ⟨e1, h1⟩ := allLines_fold sw ws (st, [])
  unfold lineStepW
  by_cases h : (ws.foldl (wordStep sw) (st, [])).2 = []
  · rw [if_pos h]
    exact ⟨e1, h1⟩
  · rw [if_neg h]
    refine ⟨e1 ++ [⟨(ws.foldl (wordStep sw) (st, [])).1.y,
      (ws.foldl (wordStep sw) (st, [])).2⟩], ?_⟩
    rw [allLines_draw, h1, List.append_assoc]

/-- Drawn-line words concatenate over list append. -/
theorem lineWords_append (a b : List DLine) :
    lineWords (a ++ b) = lineWords a ++ lineWords b := by
  simp [lineWords]

/-- `pageBreak` keeps the drawn words unchanged. -/
theorem stWords_pageBreak (st : PState) :
    stWords (pageBreak st) = stWords st := by
  unfold stWords
  rw [allLines_pageBreak]

/-- Drawing one line appends its words to the drawn words. -/
theorem stWords_draw (st : PState) (l : DLine) (y2 : Int) :
    stWords { st with current := st.current ++ [l], y := y2 } =
      stWords st ++ l.words := by
  unfold stWords
  rw [allLines_draw, lineWords_append]
  simp [lineWords]

/-- One word step conserves words: drawn words plus the pending
`current_line` grow by exactly the processed word. -/
theorem stWords_wordStep (sw : String → Int) (p : PState × List String)
    (w : String) :
    stWords (wordStep sw p w).1 ++ (wordStep sw p w).2 =
      stWords p.1 ++ p.2 ++ [w] := by
  by_cases h : sw (joinWords (p.2 ++ [w])) > 612 - 100
  · rw [wordStep_over h]
    show stWords (pageBreak _) ++ [w] = _
    rw [stWords_pageBreak, stWords_draw]
  · rw [wordStep_fit h]
    show stWords p.1 ++ (p.2 ++ [w]) = _
    rw [List.append_assoc]

/-- The word loop conserves words. -/
theorem stWords_fold (sw : String → Int) (ws : List String) :
    ∀ p, stWords ((ws.foldl (wordStep sw) p).1) ++
      (ws.foldl (wordStep sw) p).2 = stWords p.1 ++ p.2 ++ ws := by
  induction ws with
  | nil => intro p; simp
  | cons w ws ih =>
    intro p
    rw [List.foldl_cons, ih (wordStep sw p w), stWords_wordStep]
    simp [List.append_assoc]

/-- Processing a source line draws exactly the line's words, in order. -/
theorem stWords_lineStepW (sw : String → Int) (st : PState)
    (ws : List String) :
    stWords (lineStepW sw st ws) = stWords st ++ ws := by
  have h0 := stWords_fold sw ws (st, [])
  simp only [List.append_nil] at h0
  unfold lineStepW
  by_cases h : (ws.foldl (wordStep sw) (st, [])).2 = []
  · rw [if_pos h]
    rw [h, List.append_nil] at h0
    exact h0
  · rw [if_neg h, stWords_draw]
    exact h0

/-- The line loop draws exactly the words of all source lines, in
order. -/
theorem stWords_lines (sw : String → Int) (lines : List String) :
    ∀ st, stWords (lines.foldl (lineStep sw) st) =
      stWords st ++ (lines.map pyWords).flatten := by
  induction lines with
  | nil => intro st; simp
  | cons line rest ih =>
    intro st
    rw [List.foldl_cons, ih, lineStep, stWords_lineStepW]
    simp [List.append_assoc]

/-- The words of the finished document are the words drawn on the
canvas. -/
theorem docWords_paginate (sw : String → Int) (lines : List String) :
    docWords (paginateLines sw lines) =
      stWords (lines.foldl (lineStep sw) pInit) := by
  simp [docWords, paginateLines, stWords, allLines, lineWords]

/-- Word conservation for the whole paginator. -/
theorem docWords_create_pdf (sw : String → Int) (content : String) :
    docWords (create_pdf sw content) = wordsOfContent content := by
  rw [create_pdf, docWords_paginate, stWords_lines]
  rfl

/-- Every drawn line is empty, fits the printable width, or is a single
word: preservation along one word step. -/
theorem linePred_wordStep (sw : String → Int) (p : PState × List String)
    (w : String)
    (h1 : ∀ l ∈ allLines p.1, linePredOK sw l.words)
    (h2 : linePredOK sw p.2) :
    (∀ l ∈ allLines (wordStep sw p w).1, linePredOK sw l.words) ∧
      linePredOK sw (wordStep sw p w).2 := by
  by_cases h : sw (joinWords (p.2 ++ [w])) > 612 - 100
  · rw [wordStep_over h]
    constructor
    · intro l hl
      rw [show allLines (pageBreak { p.1 with
          current := p.1.current ++ [⟨p.1.y, p.2⟩], y := p.1.y - 20 }) =
          allLines p.1 ++ [⟨p.1.y, p.2⟩] from by
        rw [allLines_pageBreak, allLines_draw]] at hl
      rcases List.mem_append.mp hl with hl | hl
      · exact h1 l hl
      · rw [List.mem_singleton] at hl
        subst hl
        exact h2
    · exact Or.inr (Or.inr ⟨w, rfl⟩)
  · rw [wordStep_fit h]
    exact ⟨h1, Or.inr (Or.inl (not_lt.mp h))⟩

/-- Line-shape preservation along the word loop. -/
theorem linePred_fold (sw : String → Int) (ws : List String) :
    ∀ p, (∀ l ∈ allLines p.1, linePredOK sw l.words) →
      linePredOK sw p.2 →
      (∀ l ∈ allLines ((ws.foldl (wordStep sw) p).1), linePredOK sw l.words)
        ∧ linePredOK sw (ws.foldl (wordStep sw) p).2 := by
  induction ws with
  | nil => exact fun p h1 h2 => ⟨h1, h2⟩
  | cons w ws ih =>
    intro p h1 h2
    rw [List.foldl_cons]
    obtain ⟨g1, g2⟩ := linePred_wordStep sw p w h1 h2
    exact ih (wordStep sw p w) g1 g2

/-- Line-shape preservation along a whole source line. -/
theorem linePred_lineStepW (sw : String → Int) (st : PState)
    (ws : List String) (h1 : ∀ l ∈ allLines st, linePredOK sw l.words) :
    ∀ l ∈ allLines (lineStepW sw st ws), linePredOK sw l.words := by
  obtain ⟨g1, g2⟩ := linePred_fold sw ws (st, []) h1 (Or.inl rfl)
  unfold lineStepW
  by_cases h : (ws.foldl (wordStep sw) (st, [])).2 = []
  · rw [if_pos h]
    exact g1
  · rw [if_neg h]
    intro l hl
    rw [allLines_draw] at hl
    rcases List.mem_append.mp hl with hl | hl
    · exact g1 l hl
    · rw [List.mem_singleton] at hl
      subst hl
      exact g2

/-- Line-shape invariant for the whole line loop. -/
theorem linePred_lines (sw : String → Int) (lines : List String) :
    ∀ st, (∀ l ∈ allLines st, linePredOK sw l.words) →
      ∀ l ∈ allLines (lines.foldl (lineStep sw) st), linePredOK sw l.words := by
  induction lines with
  | nil => exact fun st h => h
  | cons line rest ih =>
    intro st h
    rw [List.foldl_cons]
    exact ih (lineStep sw st line) (linePred_lineStepW sw st (pyWords line) h)

/-- Every drawn line of a finished document is empty, fits the printable
width, or is a single word. -/
theorem linePred_doc (sw : String → Int) (content : String) :
    ∀ l ∈ (create_pdf sw content).pages.flatten, linePredOK sw l.words := by
  intro l hl
  have hmem : l ∈ allLines ((pySplitNL content).foldl (lineStep sw) pInit) := by
    simpa [create_pdf, paginateLines, allLines] using hl
  exact linePred_lines sw (pySplitNL content) pInit
    (by intro l hl; simp [allLines, pInit] at hl) l hmem

/-- Unfolding the joiner on a two-or-more-element list. -/
theorem pyJoin_cons₂ (sep a b : String) (t : List String) :
    pyJoin sep (a :: b :: t) = a ++ sep ++ pyJoin sep (b :: t) := rfl

/-- A member of a word list is no longer than the joined line. -/
theorem joinWords_len_mem {w : String} {l : List String} (h : w ∈ l) :
    w.length ≤ (joinWords l).length := by
  induction l with
  | nil => cases h
  | cons y ys ih =>
    cases ys with
    | nil =>
      rw [List.mem_singleton] at h
      subst h
      exact le_refl _
    | cons z zs =>
      have e : joinWords (y :: z :: zs) = y ++ " " ++ joinWords (z :: zs) :=
        rfl
      have e1 : (" " : String).length = 1 := rfl
      rw [e, String.length_append, String.length_append, e1]
      rcases List.mem_cons.mp h with h | h
      · subst h
        omega
      · have := ih h
        omega

/-- The reference width function is monotone: a word is never wider than
a line containing it. -/
theorem sw6_mono (w : String) (l : List String) (h : w ∈ l) :
    sw6 (joinWords [w]) ≤ sw6 (joinWords l) := by
  have h2 := joinWords_len_mem h
  have e : joinWords [w] = w := rfl
  simp only [sw6, e]
  omega

/-- Claim C6: the paginator never splits a word — the drawn lines contain
exactly the whitespace-delimited words of the content, in order, each on
exactly one drawn line; and (for a width function under which a word is
never wider than a line containing it) a word wider than the printable
width is always drawn alone on its own line. -/
theorem C6_theorem (sw : String → Int) (content : String)
    (hmono : ∀ (w : String) (l : List String), w ∈ l →
      sw (joinWords [w]) ≤ sw (joinWords l)) :
    docWords (create_pdf sw content) = wordsOfContent content ∧
    WideAlone sw (create_pdf sw content) := by
  refine ⟨docWords_create_pdf sw content, ?_⟩
  intro pg hpg l hl w hw hwide
  have hline := linePred_doc sw content l
    (List.mem_flatten.mpr ⟨pg, hpg, hl⟩)
  rcases hline with he | hle | ⟨w2, he⟩
  · rw [he] at hw
    cases hw
  · have := hmono w l.words hw
    omega
  · rw [he] at hw
    rw [List.mem_singleton] at hw
    rw [he, hw]

/-- Claim C6, instantiated at the reference width function and a concrete
content string. -/
theorem C6_witness :
    docWords (create_pdf sw6 "hello world") = wordsOfContent "hello world" ∧
    WideAlone sw6 (create_pdf sw6 "hello world") :=
  C6_theorem sw6 "hello world" sw6_mono

/-- The cursor after the page-overflow check. -/
theorem pageBreak_y (st : PState) :
    (pageBreak st).y = if st.y < 50 then 792 - 50 else st.y := by
  unfold pageBreak
  by_cases h : st.y < 50 <;> simp [h]

/-- Taking the length of the first block of an append. -/
theorem take_app_two (X Z : List DLine) (a b : DLine) :
    ((X ++ [a, b]) ++ Z).take (X.length + 2) = X ++ [a, b] := by
  have h : X.length + 2 = (X ++ [a, b]).length := by simp
  rw [h, List.take_left]

/-- Claim C10: when the first word of a source line is alone wider than
the printable width, the paginator first draws an empty line at the
current cursor and moves down one line height (running the overflow
check), and the next drawn line is exactly the over-wide word alone — the
word consumes two line slots, one of them blank. -/
theorem C10_theorem (sw : String → Int) (st : PState) (w : String)
    (rest : List String) (h1 : sw (joinWords [w]) > 612 - 100)
    (h2 : ∀ x, sw (joinWords [w, x]) > 612 - 100) :
    (allLines (lineStepW sw st (w :: rest))).take
      ((allLines st).length + 2) =
    allLines st ++ [⟨st.y, []⟩,
      ⟨if st.y - 20 < 50 then 792 - 50 else st.y - 20, [w]⟩] := by
  have e1 : wordStep sw (st, ([] : List String)) w =
      (pageBreak { st with current := st.current ++ [⟨st.y, []⟩], y := st.y - 20 }, [w]) := by
    rw [wordStep_over (p := (st, ([] : List String))) (by simpa using h1)]
  unfold lineStepW
  rw [List.foldl_cons, e1]
  set st2 := pageBreak { st with current := st.current ++ [⟨st.y, []⟩], y := st.y - 20 } with hst2
  have hA2 : allLines st2 = allLines st ++ [⟨st.y, []⟩] := by
    rw [hst2, allLines_pageBreak, allLines_draw]
  have hy2 : st2.y = if st.y - 20 < 50 then 792 - 50 else st.y - 20 := by
    rw [hst2, pageBreak_y]
  cases rest with
  | nil =>
    rw [List.foldl_nil]
    rw [if_neg (by simp : ¬ ((st2, [w]).2 = []))]
    rw [allLines_draw, hA2, hy2]
    have e4 : (allLines st ++ [(⟨st.y, []⟩ : DLine)]) ++
        [(⟨if st.y - 20 < 50 then 792 - 50 else st.y - 20, [w]⟩ : DLine)] =
        (allLines st ++ [(⟨st.y, []⟩ : DLine),
          ⟨if st.y - 20 < 50 then 792 - 50 else st.y - 20, [w]⟩]) ++ [] := by
      simp
    rw [e4]
    exact take_app_two _ _ _ _
  | cons r rs =>
    rw [List.foldl_cons]
    have e2 : wordStep sw (st2, [w]) r =
        (pageBreak { st2 with current := st2.current ++ [⟨st2.y, [w]⟩], y := st2.y - 20 }, [r]) := by
      rw [wordStep_over (p := (st2, [w])) (by simpa using h2 r)]
    rw [e2]
    set st3 := pageBreak { st2 with current := st2.current ++ [⟨st2.y, [w]⟩], y := st2.y - 20 } with hst3
    have hA3 : allLines st3 = allLines st ++ [⟨st.y, []⟩,
        ⟨if st.y - 20 < 50 then 792 - 50 else st.y - 20, [w]⟩] := by
      rw [hst3, allLines_pageBreak, allLines_draw, hA2, hy2]
      simp
    obtain ⟨e3, h3⟩ := allLines_fold sw rs (st3, [r])
    by_cases hq : (rs.foldl (wordStep sw) (st3, [r])).2 = []
    · rw [if_pos hq, h3, hA3]
      exact take_app_two _ _ _ _
    · rw [if_neg hq, allLines_draw, h3, hA3, List.append_assoc]
      exact take_app_two _ _ _ _

/-- The 86-character word is wider than the printable width under the
reference metric. -/
theorem wideW_wide : sw6 (joinWords [wideW]) > 612 - 100 := by decide

/-- The 86-character word joined with any further word still overflows
the printable width. -/
theorem wideW_wide_pair (x : String) :
    sw6 (joinWords [wideW, x]) > 612 - 100 := by
  have e : joinWords [wideW, x] = wideW ++ " " ++ x := rfl
  have hw : wideW.length = 86 := by decide
  have hsp : (" " : String).length = 1 := rfl
  simp only [sw6, e, String.length_append, hw, hsp]
  omega

/-- Claim C10, instantiated: from the initial canvas an 86-character
word followed by `"b"` first produces a blank drawn line at the top
cursor, then the over-wide word alone. -/
theorem C10_witness :
    (allLines (lineStepW sw6 pInit (wideW :: ["b"]))).take
      ((allLines pInit).length + 2) =
    allLines pInit ++ [⟨pInit.y, []⟩,
      ⟨if pInit.y - 20 < 50 then 792 - 50 else pInit.y - 20, [wideW]⟩] :=
  C10_theorem sw6 pInit wideW ["b"] wideW_wide wideW_wide_pair

/-- A non-empty page keeps its first line (and so `pageOK`) when another
line is appended. -/
theorem pageOK_extend {pg : List DLine} (l : DLine) (h : pageOK pg) :
    pageOK (pg ++ [l]) := by
  cases pg with
  | nil => simp [pageOK] at h
  | cons a as => simpa [pageOK] using h

/-- Drawing a line at the current cursor preserves the structural canvas
invariant. -/
theorem stOK_draw (st : PState) (ws : List String) (y2 : Int)
    (h : StOK st) : StOK { st with current := st.current ++ [⟨st.y, ws⟩], y := y2 } := by
  obtain ⟨hc, he, hcur⟩ := h
  refine ⟨hc, by simp, ?_⟩
  intro _
  cases hcc : st.current with
  | nil =>
    have hy := he hcc
    simp [pageOK, hcc, hy]
  | cons a as =>
    have hp := hcur (by simp [hcc])
    rw [hcc] at hp
    show pageOK (a :: as ++ [⟨st.y, ws⟩])
    exact pageOK_extend _ hp

/-- The page-overflow check preserves the structural canvas invariant
when the open page is non-empty. -/
theorem stOK_break (st : PState) (h : StOK st) (hne : st.current ≠ []) :
    StOK (pageBreak st) := by
  unfold pageBreak
  by_cases hy : st.y < 50
  · rw [if_pos hy]
    refine ⟨?_, fun _ => rfl, ?_⟩
    · intro pg hpg
      rcases List.mem_append.mp hpg with hpg | hpg
      · exact h.1 pg hpg
      · rw [List.mem_singleton] at hpg
        subst hpg
        exact h.2.2 hne
    · intro habs
      exact absurd rfl habs
  · rw [if_neg hy]
    exact h

/-- One word step preserves the structural invariant and non-degeneracy
of the open page. -/
theorem inv_wordStep (sw : String → Int) (p : PState × List String)
    (w : String) (h : StOK p.1) :
    StOK (wordStep sw p w).1 ∧
      NonDegen (wordStep sw p w).1 (wordStep sw p w).2 := by
  by_cases hov : sw (joinWords (p.2 ++ [w])) > 612 - 100
  · rw [wordStep_over hov]
    have hdraw := stOK_draw p.1 p.2 (p.1.y - 20) h
    refine ⟨stOK_break _ hdraw (by simp), ?_⟩
    intro _
    exact Or.inr (by simp)
  · rw [wordStep_fit hov]
    exact ⟨h, fun _ => Or.inr (by simp)⟩

/-- The word loop preserves the structural invariant and
non-degeneracy. -/
theorem inv_fold (sw : String → Int) (ws : List String) :
    ∀ p : PState × List String, StOK p.1 → NonDegen p.1 p.2 →
      StOK ((ws.foldl (wordStep sw) p).1) ∧
        NonDegen ((ws.foldl (wordStep sw) p).1)
          ((ws.foldl (wordStep sw) p).2) := by
  induction ws with
  | nil => exact fun p h hnd => ⟨h, hnd⟩
  | cons w ws ih =>
    intro p h hnd
    rw [List.foldl_cons]
    obtain ⟨g1, g2⟩ := inv_wordStep sw p w h
    exact ih (wordStep sw p w) g1 g2

/-- Processing one source line preserves the structural invariant, and
keeps the open page non-empty whenever a page has been closed. -/
theorem inv_lineStepW (sw : String → Int) (st : PState) (ws : List String)
    (h : StOK st) (hnd : NonDegen st []) :
    StOK (lineStepW sw st ws) ∧ NonDegen (lineStepW sw st ws) [] := by
  obtain ⟨g1, g2⟩ := inv_fold sw ws (st, []) h hnd
  unfold lineStepW
  by_cases hq : (ws.foldl (wordStep sw) (st, [])).2 = []
  · rw [if_pos hq]
    refine ⟨g1, ?_⟩
    intro hcne
    rcases g2 hcne with hc | hc
    · exact Or.inl hc
    · exact absurd hq hc
  · rw [if_neg hq]
    refine ⟨stOK_draw _ _ _ g1, ?_⟩
    intro _
    exact Or.inl (by simp)

/-- The line loop preserves the structural invariant and
non-degeneracy. -/
theorem inv_lines (sw : String → Int) (lines : List String) :
    ∀ st, StOK st → NonDegen st [] →
      StOK (lines.foldl (lineStep sw) st) ∧
        NonDegen (lines.foldl (lineStep sw) st) [] := by
  induction lines with
  | nil => exact fun st h hnd => ⟨h, hnd⟩
  | cons line rest ih =>
    intro st h hnd
    rw [List.foldl_cons]
    obtain ⟨g1, g2⟩ := inv_lineStepW sw st (pyWords line) h hnd
    exact ih (lineStep sw st line) g1 g2

/-- Claim C1 is false on the code: in 36 one-word source lines the 36th
line is drawn at `y = 42`, below the bottom-margin threshold 50, and no
new page is opened — the final-line emission skips the overflow check. -/
theorem C1_counterexample :
    (⟨42, ["a"]⟩ : DLine) ∈ (create_pdf sw6 content36).pages.flatten ∧
    (42 : Int) < 50 ∧ (create_pdf sw6 content36).pages.length = 1 :=
  ⟨by decide, by decide, by decide⟩

/-- Claim C1 (amended): the final drawn line of a source line receives
the same `y`-decrement as wrapped lines but not the page-overflow check
(which runs only in the wrap branch), so drawn lines can land below the
bottom margin; whenever the overflow check does close a page, the next
page is non-empty and its first drawn line sits at `y = page_height −
margin`: every page after the first starts at the top position. -/
theorem C1_theorem (sw : String → Int) (content : String)
    (pg : List DLine)
    (hm : pg ∈ ((create_pdf sw content).pages.drop 1)) :
    (pg.map DLine.y).head? = some (792 - 50) := by
  have hinit : StOK pInit :=
    ⟨by intro pg hpg; simp [pInit] at hpg, fun _ => rfl,
      fun h => absurd rfl h⟩
  have hinitnd : NonDegen pInit [] := fun h => absurd rfl h
  obtain ⟨hok, hnd⟩ :=
    inv_lines sw (pySplitNL content) pInit hinit hinitnd
  rw [show (create_pdf sw content).pages =
      ((pySplitNL content).foldl (lineStep sw) pInit).completed ++
        [((pySplitNL content).foldl (lineStep sw) pInit).current] from rfl]
    at hm
  cases hcomp : ((pySplitNL content).foldl (lineStep sw) pInit).completed with
  | nil =>
    rw [hcomp] at hm
    simp at hm
  | cons c cs =>
    rw [hcomp] at hm
    rw [List.cons_append, List.drop_one, List.tail_cons] at hm
    rcases List.mem_append.mp hm with hpg | hpg
    · exact hok.1 pg (by rw [hcomp]; exact List.mem_cons_of_mem c hpg)
    · rw [List.mem_singleton] at hpg
      subst hpg
      have hcne : ((pySplitNL content).foldl (lineStep sw) pInit).current ≠ [] := by
        rcases hnd (by rw [hcomp]; simp) with hc | hc
        · exact hc
        · exact absurd rfl hc
      exact hok.2.2 hcne

/-- Claim C1 (amended), instantiated: in `contentA` the wrap of the last
source line closes page one at cursor 42 and the second page starts with
the over-wide word at the top position `742 = 792 - 50`. -/
theorem C1_witness :
    (([⟨742, [bigX]⟩] : List DLine).map DLine.y).head? = some (792 - 50) :=
  C1_theorem sw6 contentA [⟨742, [bigX]⟩] (by decide)

/-- The overflow check never removes closed pages. -/
theorem completed_pageBreak (st : PState) :
    st.completed.length ≤ (pageBreak st).completed.length := by
  unfold pageBreak
  by_cases hy : st.y < 50
  · rw [if_pos hy]
    simp
  · rw [if_neg hy]

/-- One word step never removes closed pages. -/
theorem completed_wordStep (sw : String → Int) (p : PState × List String)
    (w : String) :
    p.1.completed.length ≤ (wordStep sw p w).1.completed.length := by
  by_cases hov : sw (joinWords (p.2 ++ [w])) > 612 - 100
  · rw [wordStep_over hov]
    exact completed_pageBreak { p.1 with current := p.1.current ++ [⟨p.1.y, p.2⟩], y := p.1.y - 20 }
  · rw [wordStep_fit hov]

/-- The word loop never removes closed pages. -/
theorem completed_fold (sw : String → Int) (ws : List String) :
    ∀ p : PState × List String,
      p.1.completed.length ≤ ((ws.foldl (wordStep sw) p).1).completed.length := by
  induction ws with
  | nil => exact fun p => le_refl _
  | cons w ws ih =>
    intro p
    rw [List.foldl_cons]
    exact le_trans (completed_wordStep sw p w) (ih (wordStep sw p w))

/-- Processing one source line never removes closed pages. -/
theorem completed_lineStep (sw : String → Int) (st : PState) (line : String) :
    st.completed.length ≤ (lineStep sw st line).completed.length := by
  rw [lineStep]
  unfold lineStepW
  by_cases hq : ((pyWords line).foldl (wordStep sw) (st, [])).2 = []
  · rw [if_pos hq]
    exact completed_fold sw (pyWords line) (st, [])
  · rw [if_neg hq]
    exact completed_fold sw (pyWords line) (st, [])

/-- The line loop never removes closed pages. -/
theorem completed_lines (sw : String → Int) (lines : List String) :
    ∀ st, st.completed.length ≤
      (lines.foldl (lineStep sw) st).completed.length := by
  induction lines with
  | nil => exact fun st => le_refl _
  | cons line rest ih =>
    intro st
    rw [List.foldl_cons]
    exact le_trans (completed_lineStep sw st line) (ih (lineStep sw st line))

/-- Claim C5 is false as stated: `contentB` has strictly more words than
`contentA`, drawn from exactly the same vocabulary, yet paginates to
fewer pages — putting the words on their own source lines prevents every
wrap, and page breaks happen only in the wrap branch. -/
theorem C5_counterexample :
    (wordsOfContent contentB).length > (wordsOfContent contentA).length ∧
    (∀ w ∈ wordsOfContent contentB, w ∈ wordsOfContent contentA) ∧
    (∀ w ∈ wordsOfContent contentA, w ∈ wordsOfContent contentB) ∧
    (create_pdf sw6 contentB).pages.length <
      (create_pdf sw6 contentA).pages.length :=
  ⟨by decide, by decide, by decide, by decide⟩

/-- Claim C5 (amended): extending the content by appending further
source lines never produces fewer pages (`create_pdf` is
`paginateLines` after splitting the content on line breaks). -/
theorem C5_theorem (sw : String → Int) (ls1 ls2 : List String) :
    (paginateLines sw ls1).pages.length ≤
      (paginateLines sw (ls1 ++ ls2)).pages.length := by
  unfold paginateLines
  rw [List.foldl_append]
  simp only [List.length_append, List.length_singleton]
  have := completed_lines sw ls2 (ls1.foldl (lineStep sw) pInit)
  omega

/-- Claim C5 (amended), instantiated. -/
theorem C5_witness :
    (paginateLines sw6 ["a"]).pages.length ≤
      (paginateLines sw6 (["a"] ++ ["b", "c"])).pages.length :=
  C5_theorem sw6 ["a"] ["b", "c"]

/-- If no prefix of the pending line ever overflows, the word loop just
accumulates the words. -/
theorem noWrap_fold (sw : String → Int) (ws : List String) :
    ∀ (cl : List String) (st : PState),
      (∀ k ≤ ws.length, sw (joinWords (cl ++ ws.take k)) ≤ 612 - 100) →
      ws.foldl (wordStep sw) (st, cl) = (st, cl ++ ws) := by
  induction ws with
  | nil =>
    intro cl st h
    simp
  | cons w ws ih =>
    intro cl st h
    rw [List.foldl_cons]
    have h1 : ¬ sw (joinWords (cl ++ [w])) > 612 - 100 := by
      have := h 1 (by rw [List.length_cons]; omega)
      rw [List.take_succ_cons, List.take_zero] at this
      exact not_lt.mpr this
    rw [wordStep_fit h1]
    have h2 : ∀ k ≤ ws.length,
        sw (joinWords ((cl ++ [w]) ++ ws.take k)) ≤ 612 - 100 := by
      intro k hk
      have := h (k + 1) (by rw [List.length_cons]; omega)
      rw [List.take_succ_cons] at this
      simpa [List.append_assoc] using this
    rw [ih (cl ++ [w]) st h2]
    simp

/-- If no prefix of the line's words overflows, the line is drawn whole
(or skipped when empty) with a single cursor decrement and no page
break. -/
theorem noWrap_lineStepW (sw : String → Int) (st : PState)
    (ws : List String)
    (h : ∀ k ≤ ws.length, sw (joinWords (ws.take k)) ≤ 612 - 100) :
    lineStepW sw st ws = if ws = [] then st
      else { st with current := st.current ++ [⟨st.y, ws⟩], y := st.y - 20 } := by
  unfold lineStepW
  rw [noWrap_fold sw ws [] st (by simpa using h)]
  by_cases hw : ws = []
  · simp [hw]
  · simp [hw]

/-- Under the no-wrap hypothesis the line loop closes no page and moves
the cursor down exactly one line height per word-carrying source
line. -/
theorem noWrap_lines (sw : String → Int) (lines : List String) :
    ∀ st, (∀ line ∈ lines, NoWrapLine sw line) →
      (lines.foldl (lineStep sw) st).completed = st.completed ∧
      (lines.foldl (lineStep sw) st).y =
        st.y - 20 * (liveLines lines : Int) := by
  induction lines with
  | nil =>
    intro st h
    simp [liveLines]
  | cons line rest ih =>
    intro st h
    rw [List.foldl_cons]
    have hstep := noWrap_lineStepW sw st (pyWords line)
      (h line (List.mem_cons_self line rest))
    by_cases hw : pyWords line = []
    · rw [lineStep, hstep, if_pos hw]
      obtain ⟨ih1, ih2⟩ := ih st (fun l hl => h l (List.mem_cons_of_mem _ hl))
      have hl : liveLines (line :: rest) = liveLines rest := by
        simp [liveLines, List.filter_cons, hw]
      rw [hl]
      exact ⟨ih1, ih2⟩
    · rw [lineStep, hstep, if_neg hw]
      obtain ⟨ih1, ih2⟩ := ih { st with current := st.current ++ [⟨st.y, pyWords line⟩], y := st.y - 20 } (fun l hl => h l (List.mem_cons_of_mem _ hl))
      have hl : liveLines (line :: rest) = liveLines rest + 1 := by
        simp [liveLines, List.filter_cons, hw]
      refine ⟨ih1, ?_⟩
      rw [ih2, hl]
      push_cast
      ring

/-- Claim C9: page breaks fire only inside the wrap-overflow branch, so
when no source line ever overflows the printable width the whole
document lands on one single page, with the cursor decreasing by one
line height per word-carrying source line without bound — past the
bottom margin and below zero for long enough content. -/
theorem C9_theorem (sw : String → Int) (content : String)
    (h : ∀ line ∈ pySplitNL content, NoWrapLine sw line) :
    (create_pdf sw content).pages.length = 1 ∧
    (create_pdf sw content).finalY =
      (792 - 50) - 20 * (liveLines (pySplitNL content) : Int) := by
  obtain ⟨h1, h2⟩ := noWrap_lines sw (pySplitNL content) pInit h
  constructor
  · show (((pySplitNL content).foldl (lineStep sw) pInit).completed ++
      [((pySplitNL content).foldl (lineStep sw) pInit).current]).length = 1
    rw [h1]
    rfl
  · show ((pySplitNL content).foldl (lineStep sw) pInit).y = _
    rw [h2]
    rfl

/-- Claim C9, instantiated: 40 one-word source lines stay on a single
page while the cursor ends below zero. -/
theorem C9_witness :
    (create_pdf sw6 content40).pages.length = 1 ∧
    (create_pdf sw6 content40).finalY < 0 := by
  obtain ⟨g1, g2⟩ := C9_theorem sw6 content40
    (by decide : ∀ line ∈ pySplitNL content40,
      ∀ k ≤ (pyWords line).length,
        sw6 (joinWords ((pyWords line).take k)) ≤ 612 - 100)
  refine ⟨g1, ?_⟩
  rw [g2]
  decide
